import Mathlib

/-!
# Verification of the go-source-insight tool framework and analyzers

Shallow embedding of the repository's tool-execution framework
(`ToolManager`, `Tool`, `ToolResult`, the retry/timeout/validation logic),
the security-scanner and bug-detector rule engines, and the cyclomatic
complexity analyzer.  Definitions are translated from the Go sources
(`internal/tools/*.go` and the unnamed parts of the `tools` package);
each definition's doc comment names the Go symbol it embeds.

Modelling conventions:
* Go strings are Lean `String`s; the identifiers and file names involved
  are ASCII, so `String.length` coincides with Go's byte `len`.
* `fmt.Sprintf("%d", n)` for a non-negative value is modelled by
  `natToStr`, an executable decimal printer (proved injective below).
* Machine integers that can be negative (`MaxRetries`, `Timeout`) are
  `Int`; overflow never matters at the values involved.
* Effectful Go calls are modelled by explicit data: a tool's `Run` is an
  oracle `Nat → String × Option GoErr` giving the outcome of each
  successive attempt, and wall-clock time is an opaque parameter.
-/

/-- Decimal digit character, used by `natToStr` (models `fmt.Sprintf("%d", _)`
digit rendering). The catch-all branch is unreachable for inputs `< 10`. -/
def digitChar : Nat → Char
  | 0 => '0' | 1 => '1' | 2 => '2' | 3 => '3' | 4 => '4'
  | 5 => '5' | 6 => '6' | 7 => '7' | 8 => '8' | _ => '9'

/-- Accumulator worker for `natToStr`: most-significant digit first.  The
first argument is fuel (any bound on the digit count); `natToStr` passes
`n + 1`, which always suffices. -/
def natDigitsAux : Nat → Nat → List Char → List Char
  | 0, _, acc => acc
  | fuel + 1, n, acc =>
      if n < 10 then digitChar n :: acc
      else natDigitsAux fuel (n / 10) (digitChar (n % 10) :: acc)

/-- Models Go's `fmt.Sprintf("%d", n)` for a non-negative `n`. -/
def natToStr (n : Nat) : String := ⟨natDigitsAux (n + 1) n []⟩

/-- Value of a digit string, used to invert `natDigitsAux`. -/
def digitsVal : List Char → Nat
  | [] => 0
  | c :: cs => (c.toNat - 48) * 10 ^ cs.length + digitsVal cs

/-- ASCII lower-casing of one character; models `strings.ToLower` on the
ASCII identifiers this code base feeds it. -/
def lowerChar (c : Char) : Char :=
  if 'A' ≤ c ∧ c ≤ 'Z' then Char.ofNat (c.toNat + 32) else c

/-- Models `strings.ToLower` (ASCII fragment). -/
def lowerStr (s : String) : String := ⟨s.data.map lowerChar⟩

/-- ASCII upper-casing of one character; models `strings.ToUpper`. -/
def upperChar (c : Char) : Char :=
  if 'a' ≤ c ∧ c ≤ 'z' then Char.ofNat (c.toNat - 32) else c

/-- Models `strings.ToUpper` (ASCII fragment). -/
def upperStr (s : String) : String := ⟨s.data.map upperChar⟩

/-- Does `s` start with the pattern `p`? (List form of `strings.HasPrefix`.) -/
def startsSeq : List Char → List Char → Bool
  | [], _ => true
  | _ :: _, [] => false
  | p :: ps, c :: cs => p == c && startsSeq ps cs

/-- Does `s` contain the pattern `p` as a contiguous run?  Models
`strings.Contains`. -/
def hasSeq (p : List Char) : List Char → Bool
  | [] => startsSeq p []
  | c :: cs => startsSeq p (c :: cs) || hasSeq p cs

/-- Models `strings.Contains(s, pat)`. -/
def strContains (s pat : String) : Bool := hasSeq pat.data s.data

/-- Models `strings.HasPrefix(s, pat)`. -/
def strHasPre (s pat : String) : Bool := startsSeq pat.data s.data

/-- Models `strings.Trim(s, "\"")`: remove leading and trailing quote
characters. -/
def trimQuotes (s : String) : String :=
  ⟨((s.data.dropWhile (· == '"')).reverse.dropWhile (· == '"')).reverse⟩

/-- 1-based line number of byte offset `off` in `code`; models
`token.FileSet.Position(pos).Line` for a single parsed file (ASCII source,
so byte offsets and character offsets agree). -/
def lineOf (code : String) (off : Nat) : Nat :=
  (code.data.take off).count '\n' + 1

/-- Kind of a `go/ast.BasicLit` (`token.STRING`, `token.INT`, ...). -/
inductive LitKind where
  | stringKind
  | intKind
  | otherKind
deriving DecidableEq, Repr

/-- Binary operator of a `go/ast.BinaryExpr`; only the operators the rules
inspect are distinguished (`token.ADD`, `token.LAND`, `token.LOR`). -/
inductive BinOp where
  | add
  | land
  | lor
  | otherOp
deriving DecidableEq, Repr

/-- Shallow embedding of the fragment of `go/ast` the analyzers traverse.
Every constructor carries the node's byte offset (`Position(n.Pos()).Offset`);
`funcDecl` also carries the end offset used by `fn.End()` comparisons.
`*ast.Ident` children that no rule can match (a selector's `Sel`, the file's
package name, a function's name) are stored as plain strings. -/
inductive GoNode where
  | file (pos : Nat) (pkgName : String) (decls : List GoNode)
  | funcDecl (pos endP : Nat) (name : String) (params : List GoNode) (body : GoNode)
  | blockStmt (pos : Nat) (stmts : List GoNode)
  | assignStmt (pos : Nat) (lhs rhs : List GoNode)
  | ident (pos : Nat) (name : String)
  | basicLit (pos : Nat) (kind : LitKind) (value : String)
  | binaryExpr (pos : Nat) (op : BinOp) (x y : GoNode)
  | callExpr (pos : Nat) (fn : GoNode) (args : List GoNode)
  | selectorExpr (pos : Nat) (x : GoNode) (sel : String)
  | ifStmt (pos : Nat) (init : Option GoNode) (cond : GoNode) (body : GoNode) (els : Option GoNode)
  | forStmt (pos : Nat) (init cond post : Option GoNode) (body : GoNode)
  | rangeStmt (pos : Nat) (key value : Option GoNode) (coll : GoNode) (body : GoNode)
  | switchStmt (pos : Nat) (init tag : Option GoNode) (body : GoNode)
  | caseClause (pos : Nat) (list : Option (List GoNode)) (body : List GoNode)
  | typeSwitchStmt (pos : Nat) (init : Option GoNode) (assign : GoNode) (body : GoNode)
  | selectStmt (pos : Nat) (body : GoNode)
  | commClause (pos : Nat) (comm : Option GoNode) (body : List GoNode)
  | exprStmt (pos : Nat) (x : GoNode)
  | returnStmt (pos : Nat) (results : List GoNode)
  | parenExpr (pos : Nat) (x : GoNode)

/-- `n.Pos()` as a byte offset. -/
def GoNode.nodePos : GoNode → Nat
  | .file p _ _ => p
  | .funcDecl p _ _ _ _ => p
  | .blockStmt p _ => p
  | .assignStmt p _ _ => p
  | .ident p _ => p
  | .basicLit p _ _ => p
  | .binaryExpr p _ _ _ => p
  | .callExpr p _ _ => p
  | .selectorExpr p _ _ => p
  | .ifStmt p _ _ _ _ => p
  | .forStmt p _ _ _ _ => p
  | .rangeStmt p _ _ _ _ => p
  | .switchStmt p _ _ _ => p
  | .caseClause p _ _ => p
  | .typeSwitchStmt p _ _ _ => p
  | .selectStmt p _ => p
  | .commClause p _ _ => p
  | .exprStmt p _ => p
  | .returnStmt p _ => p
  | .parenExpr p _ => p

mutual

/-- Depth-first preorder node list of a tree, in `go/ast.Inspect` visiting
order (a visitor that always returns `true` sees exactly this sequence). -/
def preorder : GoNode → List GoNode
  | .file p nm ds => .file p nm ds :: preorderList ds
  | .funcDecl p e nm ps b => .funcDecl p e nm ps b :: (preorderList ps ++ preorder b)
  | .blockStmt p ss => .blockStmt p ss :: preorderList ss
  | .assignStmt p l r => .assignStmt p l r :: (preorderList l ++ preorderList r)
  | .ident p nm => [.ident p nm]
  | .basicLit p k v => [.basicLit p k v]
  | .binaryExpr p o x y => .binaryExpr p o x y :: (preorder x ++ preorder y)
  | .callExpr p f a => .callExpr p f a :: (preorder f ++ preorderList a)
  | .selectorExpr p x s => .selectorExpr p x s :: preorder x
  | .ifStmt p i c b e => .ifStmt p i c b e ::
      (preorderOpt i ++ preorder c ++ preorder b ++ preorderOpt e)
  | .forStmt p i c po b => .forStmt p i c po b ::
      (preorderOpt i ++ preorderOpt c ++ preorderOpt po ++ preorder b)
  | .rangeStmt p k v x b => .rangeStmt p k v x b ::
      (preorderOpt k ++ preorderOpt v ++ preorder x ++ preorder b)
  | .switchStmt p i t b => .switchStmt p i t b ::
      (preorderOpt i ++ preorderOpt t ++ preorder b)
  | .caseClause p l b => .caseClause p l b ::
      ((match l with | none => [] | some es => preorderList es) ++ preorderList b)
  | .typeSwitchStmt p i a b => .typeSwitchStmt p i a b ::
      (preorderOpt i ++ preorder a ++ preorder b)
  | .selectStmt p b => .selectStmt p b :: preorder b
  | .commClause p c b => .commClause p c b :: (preorderOpt c ++ preorderList b)
  | .exprStmt p x => .exprStmt p x :: preorder x
  | .returnStmt p rs => .returnStmt p rs :: preorderList rs
  | .parenExpr p x => .parenExpr p x :: preorder x

/-- Preorder of each node of a list, concatenated. -/
def preorderList : List GoNode → List GoNode
  | [] => []
  | n :: ns => preorder n ++ preorderList ns

/-- Preorder of an optional child. -/
def preorderOpt : Option GoNode → List GoNode
  | none => []
  | some n => preorder n

end

/-- The seven registered security rules, in `RegisterAllRules` order
(`security_scanner.go` lines 149-157).  The rules' `Match` methods never read
the `RuleContext`, so it is not modelled. -/
inductive SecRule where
  | hardCodedSecret
  | sqlInjection
  | weakRandom
  | infoDisclosure
  | weakEncryption
  | insecureFilePerm
  | insecureHTTP
deriving DecidableEq, Repr

/-- `SecurityRule.ID()` of each rule. -/
def SecRule.ruleId : SecRule → String
  | .hardCodedSecret => "G101"
  | .sqlInjection => "G201"
  | .weakRandom => "G401"
  | .infoDisclosure => "G104"
  | .weakEncryption => "G501"
  | .insecureFilePerm => "G302"
  | .insecureHTTP => "G107"

/-- `SecurityRule.Severity()` of each rule. -/
def SecRule.severity : SecRule → String
  | .hardCodedSecret => "Critical"
  | .sqlInjection => "Critical"
  | .weakRandom => "High"
  | .infoDisclosure => "Medium"
  | .weakEncryption => "High"
  | .insecureFilePerm => "Medium"
  | .insecureHTTP => "Medium"

/-- `SecurityRule.Category()` of each rule. -/
def SecRule.category : SecRule → String
  | .hardCodedSecret => "Credentials"
  | .sqlInjection => "Injection"
  | .weakRandom => "Cryptography"
  | .infoDisclosure => "Data Privacy"
  | .weakEncryption => "Cryptography"
  | .insecureFilePerm => "File System"
  | .insecureHTTP => "Network Security"

/-- `SecurityRule.Description()` of each rule. -/
def SecRule.descr : SecRule → String
  | .hardCodedSecret => "检测到硬编码的密码/密钥/Token"
  | .sqlInjection => "SQL 注入风险：使用字符串拼接构造 SQL 语句"
  | .weakRandom => "使用不安全的随机数生成器（math/rand）"
  | .infoDisclosure => "敏感信息打印到日志/控制台"
  | .weakEncryption => "使用弱加密算法（MD5、SHA1、DES、RC4）"
  | .insecureFilePerm => "文件权限过于宽松（如 0777）"
  | .insecureHTTP => "使用 HTTP 而非 HTTPS"

/-- `SecurityRule.Suggestion()` of each rule. -/
def SecRule.sugg : SecRule → String
  | .hardCodedSecret => "使用环境变量或配置文件存储敏感信息（如 os.Getenv、viper）"
  | .sqlInjection => "使用参数化查询（Prepared Statement）或 ORM"
  | .weakRandom => "使用 crypto/rand 代替 math/rand 用于密码学场景"
  | .infoDisclosure => "避免打印密码、Token、个人隐私信息到日志"
  | .weakEncryption => "使用强加密算法（SHA256、SHA512、AES、ChaCha20）"
  | .insecureFilePerm => "使用更严格的文件权限（如 0600、0644）"
  | .insecureHTTP => "使用 HTTPS 进行安全通信"

/-- `secretKeywords` (security_scanner.go lines 180-184). -/
def secretKeywords : List String :=
  ["password", "passwd", "secret", "api_key", "apikey",
   "access_token", "accesstoken", "private_key", "privatekey",
   "auth_token", "authtoken", "token", "credential"]

/-- `sqlKeywords` (security_scanner.go lines 219-222). -/
def sqlKeywords : List String :=
  ["SELECT", "INSERT", "UPDATE", "DELETE", "FROM", "WHERE",
   "DROP", "CREATE", "ALTER", "TRUNCATE", "EXEC", "EXECUTE"]

/-- `sensitiveKeywords` (security_scanner.go lines 285-289). -/
def sensitiveKeywords : List String :=
  ["password", "passwd", "secret", "token", "api_key",
   "private_key", "access_key", "credential", "auth",
   "ssn", "credit_card", "pin", "key"]

/-- Helper `isStringLiteral` (security_scanner.go lines 417-422). -/
def isStringLiteral : GoNode → Bool
  | .basicLit _ k _ => k == .stringKind
  | _ => false

/-- Helper `extractStringLiteral` (security_scanner.go lines 425-430); the
`value` of a `basicLit` is the literal's source text, quotes included, as in
`go/ast.BasicLit.Value`. -/
def extractStringLiteral : GoNode → String
  | .basicLit _ .stringKind v => v
  | _ => ""

/-- Helper `isPrintFunction` (security_scanner.go lines 433-450). -/
def isPrintFunction (fn : GoNode) : Bool :=
  (match fn with
   | .ident _ nm =>
       ["Print", "Println", "Printf", "Fprint", "Fprintln", "Fprintf",
        "Sprint", "Sprintln", "Sprintf", "Log", "Logf", "Logln"].any (nm == ·)
   | _ => false) ||
  (match fn with
   | .selectorExpr _ (.ident _ xnm) _ => xnm == "fmt" || xnm == "log"
   | _ => false)

/-- `HardCodedSecretRule.Match` (security_scanner.go lines 186-207): an
assignment whose left side has an identifier containing a secret keyword
(lower-cased) and whose first right-hand operand is a basic literal. -/
def matchHardCodedSecret : GoNode → Bool
  | .assignStmt _ lhs rhs =>
      lhs.any (fun l =>
        match l with
        | .ident _ nm =>
            secretKeywords.any (fun kw => strContains (lowerStr nm) kw) &&
            (match rhs.head? with
             | some (.basicLit _ _ _) => true
             | _ => false)
        | _ => false)
  | _ => false

/-- `SQLInjectionRule.Match` (security_scanner.go lines 224-244). -/
def matchSQLInjection : GoNode → Bool
  | .binaryExpr _ op x y =>
      op == .add &&
      (let hasStringLit := isStringLiteral x || isStringLiteral y
       let hasVariable := !isStringLiteral x || !isStringLiteral y
       hasStringLit && hasVariable &&
         (let s := extractStringLiteral x ++ extractStringLiteral y
          sqlKeywords.any (fun kw => strContains (upperStr s) kw)))
  | _ => false

/-- `WeakRandomRule.Match` (security_scanner.go lines 256-273). -/
def matchWeakRandom : GoNode → Bool
  | .selectorExpr _ (.ident _ xnm) sel =>
      (xnm == "rand" || xnm == "math/rand") &&
      ["Int", "Intn", "Int31", "Int31n", "Int63", "Int63n",
       "Float32", "Float64", "Perm", "Shuffle"].any (sel == ·)
  | _ => false

/-- `InfoDisclosureRule.Match` (security_scanner.go lines 291-308). -/
def matchInfoDisclosure : GoNode → Bool
  | .callExpr _ fn args =>
      isPrintFunction fn &&
      args.any (fun a =>
        match a with
        | .ident _ nm =>
            sensitiveKeywords.any (fun kw => strContains (lowerStr nm) kw)
        | _ => false)
  | _ => false

/-- `WeakEncryptionRule.Match` (security_scanner.go lines 320-344).  The two
branches of the Go function test the node as a selector expression and as a
call with a plain identifier callee; a node has exactly one of those shapes. -/
def matchWeakEncryption : GoNode → Bool
  | .selectorExpr _ (.ident _ xnm) sel =>
      ["md5", "sha1", "md4", "des", "rc4"].any (fun algo =>
        lowerStr xnm == algo || lowerStr sel == algo ++ "New" ||
          lowerStr sel == algo ++ ".New")
  | .callExpr _ (.ident _ nm) _ =>
      ["md5", "sha1", "md4"].any (fun algo => lowerStr nm == algo ++ "New")
  | _ => false

/-- `InsecureFilePermRule.Match` (security_scanner.go lines 356-379). -/
def matchInsecureFilePerm : GoNode → Bool
  | .callExpr _ (.selectorExpr _ (.ident _ xnm) sel) args =>
      (xnm == "os" || xnm == "ioutil") &&
      (sel == "OpenFile" || sel == "Create" || sel == "WriteFile") &&
      args.length ≥ 3 &&
      (match args.drop 2 with
       | GoNode.basicLit _ _ v :: _ =>
           let perm := trimQuotes v
           perm == "0777" || perm == "0666"
       | _ => false)
  | _ => false

/-- `InsecureHTTPRule.Match` (security_scanner.go lines 391-414). -/
def matchInsecureHTTP : GoNode → Bool
  | .callExpr _ (.selectorExpr _ (.ident _ xnm) sel) args =>
      xnm == "http" &&
      (sel == "Get" || sel == "Post" || sel == "Head" || sel == "Do") &&
      (match args.head? with
       | some (.basicLit _ _ v) =>
           let url := trimQuotes v
           strHasPre url "http://" && !strHasPre url "https://"
       | _ => false)
  | _ => false

/-- Dispatch `rule.Match(node, ctx)` for the security rules. -/
def secMatch : SecRule → GoNode → Bool
  | .hardCodedSecret, n => matchHardCodedSecret n
  | .sqlInjection, n => matchSQLInjection n
  | .weakRandom, n => matchWeakRandom n
  | .infoDisclosure, n => matchInfoDisclosure n
  | .weakEncryption, n => matchWeakEncryption n
  | .insecureFilePerm, n => matchInsecureFilePerm n
  | .insecureHTTP, n => matchInsecureHTTP n

/-- The engine's rule list in registration order (`RegisterAllRules`). -/
def secRules : List SecRule :=
  [.hardCodedSecret, .sqlInjection, .weakRandom, .infoDisclosure,
   .weakEncryption, .insecureFilePerm, .insecureHTTP]

/-- ASCII whitespace test used by the `strings.TrimSpace` model. -/
def isSpaceChar (c : Char) : Bool :=
  c == ' ' || c == '\t' || c == '\n' || c == '\r'

/-- Models `strings.TrimSpace` (ASCII fragment). -/
def trimSpaceStr (s : String) : String :=
  ⟨((s.data.dropWhile isSpaceChar).reverse.dropWhile isSpaceChar).reverse⟩

/-- Snippet extraction shared by `buildSecurityIssue` and `buildBugIssue`
(security_scanner.go lines 457-465): the trimmed source line, truncated after
100 bytes (characters here; the sources are ASCII). -/
def snippetAt (code : String) (line : Nat) : String :=
  let lines := code.splitOn "\n"
  if line - 1 < lines.length then
    let s := trimSpaceStr lines[line - 1]!
    if s.length > 100 then ⟨s.data.take 100⟩ ++ "..." else s
  else ""

/-- The enclosing-function lookup of `buildSecurityIssue` / `buildBugIssue`
(security_scanner.go lines 468-477): `ast.Inspect` starting at the MATCHED
node itself, keeping the name of a visited `FuncDecl` with
`fn.Pos() < node.Pos() && node.Pos() < fn.End()`.  A later match overwrites an
earlier one; the `return false` subtree cut is immaterial because `FuncDecl`s
do not nest in parser output. -/
def inspectFuncName (node : GoNode) : String :=
  (preorder node).foldl (fun acc n =>
    match n with
    | .funcDecl p e nm _ _ =>
        if p < node.nodePos ∧ node.nodePos < e then nm else acc
    | _ => acc) ""

/-- Modelled from the spec: the Issue carries the "enclosing `function` name
(empty if module-level)" — the name of the `FuncDecl` of the whole parsed
file whose span contains the matched node.  Used only to state the intended
behaviour next to `inspectFuncName`, which searches the matched node's own
subtree instead of the file. -/
def specEnclosingFunction (root target : GoNode) : String :=
  (preorder root).foldl (fun acc n =>
    match n with
    | .funcDecl p e nm _ _ =>
        if p < target.nodePos ∧ target.nodePos < e then nm else acc
    | _ => acc) ""

/-- `SecurityIssue` (security_scanner.go lines 94-105).  The presentation-only
`Summary` sentence of `SecurityResult` is not modelled; no claim refers to it. -/
structure SecurityIssue where
  id : String
  ruleId : String
  severity : String
  category : String
  description : String
  file : String
  line : Nat
  function : String
  codeSnippet : String
  suggestion : String
deriving DecidableEq, Repr

/-- `buildSecurityIssue` (security_scanner.go lines 453-491). -/
def buildSecurityIssue (rule : SecRule) (node : GoNode) (code : String) : SecurityIssue :=
  let line := lineOf code node.nodePos
  { id := "sec-" ++ natToStr node.nodePos
    ruleId := rule.ruleId
    severity := rule.severity
    category := rule.category
    description := rule.descr
    file := ""
    line := line
    function := inspectFuncName node
    codeSnippet := snippetAt code line
    suggestion := rule.sugg }

/-- The issue list collected by `SecurityScanner.Run`'s `ast.Inspect` pass
(security_scanner.go lines 56-70): at every visited node, every registered
rule is tried in order and each match becomes an issue. -/
def securityScanIssues (code : String) (t : GoNode) : List SecurityIssue :=
  (preorder t).flatMap (fun n =>
    (secRules.filter (fun r => secMatch r n)).map (fun r => buildSecurityIssue r n code))

/-- Deduplication key of `deduplicateIssues` (security_scanner.go line 499):
`fmt.Sprintf("%s-%d", issue.RuleID, issue.Line)`. -/
def secKey (i : SecurityIssue) : String := i.ruleId ++ "-" ++ natToStr i.line

/-- Generic first-occurrence deduplication with a `seen` set, the common
shape of `deduplicateIssues` and `deduplicateBugIssues`. -/
def dedupByKey {α : Type} (key : α → String) : List α → List String → List α
  | [], _ => []
  | i :: t, seen =>
      if key i ∈ seen then dedupByKey key t seen
      else i :: dedupByKey key t (key i :: seen)

/-- `deduplicateIssues` (security_scanner.go lines 494-507). -/
def deduplicateIssues (l : List SecurityIssue) : List SecurityIssue :=
  dedupByKey secKey l []

/-- `SecurityStats` (security_scanner.go lines 117-123). -/
structure SecurityStats where
  totalIssues : Nat
  critical : Nat
  high : Nat
  medium : Nat
  low : Nat
deriving DecidableEq, Repr

/-- `calculateSecurityStatistics` (security_scanner.go lines 560-579). -/
def calculateSecurityStatistics (issues : List SecurityIssue) : SecurityStats :=
  issues.foldl (fun st i =>
    if i.severity == "Critical" then { st with critical := st.critical + 1 }
    else if i.severity == "High" then { st with high := st.high + 1 }
    else if i.severity == "Medium" then { st with medium := st.medium + 1 }
    else if i.severity == "Low" then { st with low := st.low + 1 }
    else st)
    { totalIssues := issues.length, critical := 0, high := 0, medium := 0, low := 0 }

/-- `SecurityResult` (security_scanner.go lines 108-114), minus the
presentation-only `Summary` string. -/
structure SecurityResult where
  file : String
  total : Nat
  issues : List SecurityIssue
  statistics : SecurityStats
deriving DecidableEq, Repr

/-- `SecurityScanner.Run` (security_scanner.go lines 36-91) after the external
parse step: scan, deduplicate, aggregate.  `code` is the raw source (used for
line numbers and snippets) and `t` the tree the parser produced for it. -/
def securityRun (code : String) (t : GoNode) : SecurityResult :=
  let issues := deduplicateIssues (securityScanIssues code t)
  { file := ""
    total := issues.length
    issues := issues
    statistics := calculateSecurityStatistics issues }

/-- The four registered bug rules, in `RegisterAllRules` order
(part_010 lines 420-425). -/
inductive BugRule where
  | ignoredError
  | resourceNotClosed
  | switchWithoutDefault
  | potentialNilPointer
deriving DecidableEq, Repr

/-- `BugRule.ID()`. -/
def BugRule.ruleId : BugRule → String
  | .ignoredError => "B101"
  | .resourceNotClosed => "B102"
  | .switchWithoutDefault => "B103"
  | .potentialNilPointer => "B104"

/-- `BugRule.Severity()`. -/
def BugRule.severity : BugRule → String
  | .ignoredError => "High"
  | .resourceNotClosed => "High"
  | .switchWithoutDefault => "Low"
  | .potentialNilPointer => "Medium"

/-- `BugRule.Category()`. -/
def BugRule.category : BugRule → String
  | .ignoredError => "Error Handling"
  | .resourceNotClosed => "Resource Management"
  | .switchWithoutDefault => "Control Flow"
  | .potentialNilPointer => "Null Safety"

/-- `BugRule.Description()`. -/
def BugRule.descr : BugRule → String
  | .ignoredError => "忽略了错误返回值"
  | .resourceNotClosed => "打开文件/连接但没有 defer close()"
  | .switchWithoutDefault => "switch 语句没有 default 分支"
  | .potentialNilPointer => "对可能为 nil 的指针调用方法"

/-- Confidence assigned per rule in `buildBugIssue` (part_010 lines 636-644). -/
def BugRule.confidence : BugRule → String
  | .ignoredError => "high"
  | .resourceNotClosed => "medium"
  | .switchWithoutDefault => "high"
  | .potentialNilPointer => "low"

/-- Helper `isErrorReturningFunction` (part_010 lines 550-587), applied to
the call's `Fun` expression. -/
def isErrorReturningFunction (fn : GoNode) : Bool :=
  (match fn with
   | .selectorExpr _ (.ident _ pkg) _ =>
       pkg == "os" || pkg == "http" || pkg == "ioutil"
   | _ => false) ||
  (match fn with
   | .ident _ nm =>
       ["Read", "Write", "Open", "Create", "Get", "Post"].any
         (fun pre => strHasPre nm pre)
   | _ => false)

/-- Helper `isFileOpenFunction` (part_010 lines 590-606). -/
def isFileOpenFunction : GoNode → Bool
  | .selectorExpr _ (.ident _ xnm) sel =>
      xnm == "os" &&
      (sel == "Open" || sel == "Create" || sel == "OpenFile" || sel == "WriteFile")
  | _ => false

/-- `IgnoredErrorRule.Match` (part_010 lines 450-470): an assignment with a
`_` on the left whose first right-hand operand is a call to a function that
may return an error. -/
def matchIgnoredError : GoNode → Bool
  | .assignStmt _ lhs rhs =>
      lhs.any (fun l =>
        match l with
        | .ident _ nm =>
            nm == "_" &&
            (match rhs.head? with
             | some (.callExpr _ fn _) => isErrorReturningFunction fn
             | _ => false)
        | _ => false)
  | _ => false

/-- `ResourceNotClosedRule.Match` (part_010 lines 484-494). -/
def matchResourceNotClosed : GoNode → Bool
  | .callExpr _ fn _ => isFileOpenFunction fn
  | _ => false

/-- `SwitchWithoutDefaultRule.Match` (part_010 lines 508-524): a switch
statement none of whose (recursively inspected) case clauses is a `default`
(`CaseClause.List == nil`). -/
def matchSwitchWithoutDefault : GoNode → Bool
  | .switchStmt _ _ _ body =>
      !((preorder body).any (fun n =>
        match n with
        | .caseClause _ none _ => true
        | _ => false))
  | _ => false

/-- `PotentialNilPointerRule.Match` (part_010 lines 538-547): any call whose
callee is a selector expression. -/
def matchPotentialNilPointer : GoNode → Bool
  | .callExpr _ fn _ =>
      (match fn with
       | .selectorExpr _ _ _ => true
       | _ => false)
  | _ => false

/-- Dispatch `rule.Match(node, ctx)` for the bug rules. -/
def bugMatch : BugRule → GoNode → Bool
  | .ignoredError, n => matchIgnoredError n
  | .resourceNotClosed, n => matchResourceNotClosed n
  | .switchWithoutDefault, n => matchSwitchWithoutDefault n
  | .potentialNilPointer, n => matchPotentialNilPointer n

/-- The bug engine's rule list in registration order (`RegisterAllRules`,
part_010 lines 420-425). -/
def bugRules : List BugRule :=
  [.ignoredError, .resourceNotClosed, .switchWithoutDefault, .potentialNilPointer]

/-- `BugIssue` (part_010 lines 87-99). -/
structure BugIssue where
  id : String
  ruleId : String
  severity : String
  category : String
  description : String
  file : String
  line : Nat
  function : String
  codeSnippet : String
  confidence : String
deriving DecidableEq, Repr

/-- `buildBugIssue` (part_010 lines 609-659).  The `FixSuggestion` text
(`rule.GenerateSuggestion`, a constant string per rule) is not modelled;
no claim refers to it. -/
def buildBugIssue (rule : BugRule) (node : GoNode) (code filename : String) : BugIssue :=
  let line := lineOf code node.nodePos
  { id := "bug-" ++ natToStr node.nodePos
    ruleId := rule.ruleId
    severity := rule.severity
    category := rule.category
    description := rule.descr
    file := filename
    line := line
    function := inspectFuncName node
    codeSnippet := snippetAt code line
    confidence := rule.confidence }

/-- The issue list collected by `BugDetector.analyzeCode`'s `ast.Inspect`
pass (part_010 lines 269-296) for one parsed file. -/
def analyzeBugs (code filename : String) (t : GoNode) : List BugIssue :=
  (preorder t).flatMap (fun n =>
    (bugRules.filter (fun r => bugMatch r n)).map (fun r => buildBugIssue r n code filename))

/-- Deduplication key of `deduplicateBugIssues` (part_010 line 667):
`fmt.Sprintf("%s-%d-%d", bug.RuleID, bug.Line, len(bug.File))` — note the
file-name LENGTH is part of the key, not the pair (ruleId, line) alone. -/
def bugKey (i : BugIssue) : String :=
  i.ruleId ++ "-" ++ natToStr i.line ++ "-" ++ natToStr i.file.length

/-- `deduplicateBugIssues` (part_010 lines 662-675). -/
def deduplicateBugIssues (l : List BugIssue) : List BugIssue :=
  dedupByKey bugKey l []

/-- The issue pipeline of `BugDetector.Run` (part_010 lines 135-176) for a
file-list input whose files are all readable and parse successfully: the
per-file `analyzeCode` results are concatenated in order and then
deduplicated.  Each input triple is (file name, source text, parsed tree);
reading from the file system and the parse are external. -/
def bugRunIssues (files : List (String × String × GoNode)) : List BugIssue :=
  deduplicateBugIssues
    (files.flatMap (fun f => analyzeBugs f.2.1 f.1 f.2.2))

/-- The complexity count contributed by one visited node in
`calculateComplexity`'s `ast.Inspect` switch (complexity_analyzer.go lines
134-178): 1 for `if`/`for`/`range`/`switch`/type-switch/`select` statements,
comm clauses and non-default case clauses, and for `&&`/`||` operators. -/
def decisionIncrement : GoNode → Nat
  | .ifStmt _ _ _ _ _ => 1
  | .forStmt _ _ _ _ _ => 1
  | .rangeStmt _ _ _ _ _ => 1
  | .switchStmt _ _ _ _ => 1
  | .caseClause _ (some _) _ => 1
  | .caseClause _ none _ => 0
  | .typeSwitchStmt _ _ _ _ => 1
  | .selectStmt _ _ => 1
  | .commClause _ _ _ => 1
  | .binaryExpr _ op _ _ => if op == .land || op == .lor then 1 else 0
  | _ => 0

/-- `calculateComplexity` (complexity_analyzer.go lines 131-181): count
starts at 1 and each node visited by `ast.Inspect(fn, ...)` adds its
decision increment. -/
def calculateComplexity (fn : GoNode) : Nat :=
  (preorder fn).foldl (fun c n => c + decisionIncrement n) 1

/-- The function-collection pass of `ComplexityAnalyzer.Run`
(complexity_analyzer.go lines 49-55): every `FuncDecl` seen by
`ast.Inspect` over the parsed file. -/
def collectFunctions (t : GoNode) : List GoNode :=
  (preorder t).filter (fun n =>
    match n with
    | .funcDecl _ _ _ _ _ => true
    | _ => false)

/-- `calculateLines` (complexity_analyzer.go lines 184-188):
`end line - start line + 1`. -/
def calculateLines (code : String) : GoNode → Nat
  | .funcDecl p e _ _ _ => lineOf code e - lineOf code p + 1
  | _ => 0

/-- `generateIssues` (complexity_analyzer.go lines 191-219).  The density
test `float64(complexity)/float64(lines) > 0.5` is modelled by the exact
rational comparison `2*complexity > lines`, which agrees with the float64
computation for every line count below 2^53. -/
def generateIssues (complexity lines : Nat) : List String :=
  (if complexity > 50 then ["🚨 圈复杂度过高（>50），必须拆分函数！"]
   else if complexity > 20 then ["❌ 圈复杂度较高（>20），建议拆分函数"]
   else if complexity > 10 then ["⚠️ 圈复杂度偏高（>10），可能需要重构"]
   else []) ++
  (if lines > 100 then ["📏 函数过长（>100行），建议拆分"]
   else if lines > 50 then ["📏 函数较长（>50行），可考虑拆分"]
   else []) ++
  (if lines > 0 then
     (if 2 * complexity > lines ∧ lines > 20 then ["📊 复杂度密度过高，逻辑过于密集"]
      else [])
   else [])

/-- `FunctionResult` (complexity_analyzer.go lines 103-109). -/
structure FunctionResult where
  name : String
  line : Nat
  complexity : Nat
  lines : Nat
  issues : List String
deriving DecidableEq, Repr

/-- `Statistics` (complexity_analyzer.go lines 121-127). -/
structure Statistics where
  totalFunctions : Nat
  simpleFunctions : Nat
  mediumFunctions : Nat
  complexFunctions : Nat
  veryComplexFunctions : Nat
deriving DecidableEq, Repr

/-- `calculateStatistics` (complexity_analyzer.go lines 255-274). -/
def calculateStatistics (results : List FunctionResult) : Statistics :=
  results.foldl (fun st r =>
    if r.complexity ≤ 10 then { st with simpleFunctions := st.simpleFunctions + 1 }
    else if r.complexity ≤ 20 then { st with mediumFunctions := st.mediumFunctions + 1 }
    else if r.complexity ≤ 50 then { st with complexFunctions := st.complexFunctions + 1 }
    else { st with veryComplexFunctions := st.veryComplexFunctions + 1 })
    { totalFunctions := results.length, simpleFunctions := 0, mediumFunctions := 0,
      complexFunctions := 0, veryComplexFunctions := 0 }

/-- `ComplexityResult` (complexity_analyzer.go lines 112-118), minus the
presentation-only `Summary` string.  Note that `Total` holds the SUM of the
analyzed functions' complexities (`totalComplexity`, Run lines 59-82). -/
structure ComplexityResult where
  file : String
  total : Nat
  functions : List FunctionResult
  statistics : Statistics
deriving DecidableEq, Repr

/-- The per-function analysis of `ComplexityAnalyzer.Run`
(complexity_analyzer.go lines 61-82). -/
def analyzeFunction (code : String) (fn : GoNode) : FunctionResult :=
  let complexity := calculateComplexity fn
  let lines := calculateLines code fn
  { name := (match fn with | .funcDecl _ _ nm _ _ => nm | _ => "")
    line := lineOf code fn.nodePos
    complexity := complexity
    lines := lines
    issues := generateIssues complexity lines }

/-- `ComplexityAnalyzer.Run` (complexity_analyzer.go lines 32-100) after the
external parse step. -/
def complexityRun (code : String) (t : GoNode) : ComplexityResult :=
  let functionResults := (collectFunctions t).map (analyzeFunction code)
  { file := ""
    total := (functionResults.map (fun r => r.complexity)).sum
    functions := functionResults
    statistics := calculateStatistics functionResults }

/-- Go error values the tool framework manipulates: the sentinels of the
`tools` package error list (part_010 lines 1016-1023), the context package's
`DeadlineExceeded`, and free-form errors.  `errors.Is(err, X)` on these
sentinel values is equality (the tools under test return the sentinels
unwrapped). -/
inductive GoErr where
  | errToolNotFound
  | errToolDisabled
  | errInvalidInput
  | errToolTimeout
  | errToolExecution
  | errInputValidation
  | deadlineExceeded
  | otherErr (msg : String)
deriving DecidableEq, Repr

/-- `err.Error()`. -/
def GoErr.message : GoErr → String
  | .errToolNotFound => "工具不存在"
  | .errToolDisabled => "工具已禁用"
  | .errInvalidInput => "无效的输入"
  | .errToolTimeout => "工具执行超时"
  | .errToolExecution => "工具执行失败"
  | .errInputValidation => "输入验证失败"
  | .deadlineExceeded => "context deadline exceeded"
  | .otherErr msg => msg

/-- `errors.Is(err, context.DeadlineExceeded)` for the modelled errors. -/
def errorsIsDeadline (e : GoErr) : Bool := e == .deadlineExceeded

/-- The dynamic (`any`-typed) values a tool input can take in this model:
`nil`, a string, or an int. -/
inductive GoValue where
  | nilV
  | strV (s : String)
  | intV (n : Int)
deriving DecidableEq, Repr

/-- `reflect.Type` of the modelled input shapes. -/
inductive GoType where
  | stringT
  | intT
deriving DecidableEq, Repr

/-- Printed name of a `GoType` (for `%v` in error messages). -/
def GoType.typeName : GoType → String
  | .stringT => "string"
  | .intT => "int"

/-- `reflect.TypeOf` of a non-nil `GoValue`. -/
def typeOfValue : GoValue → GoType
  | .nilV => .stringT
  | .strV _ => .stringT
  | .intV _ => .intT

/-- `BaseTool.Validate` (part_010 lines 712-732): reject nil, reject a type
mismatch with an explanatory error, and for string-typed tools reject the
empty string. -/
def baseToolValidate (inputType : GoType) (input : GoValue) : Option GoErr :=
  match input with
  | .nilV => some .errInvalidInput
  | _ =>
    if typeOfValue input ≠ inputType then
      some (.otherErr ("输入类型错误: 期望 " ++ inputType.typeName ++
        ", 实际 " ++ (typeOfValue input).typeName))
    else if inputType = .stringT then
      match input with
      | .strV s => if s = "" then some .errInvalidInput else none
      | _ => some .errInvalidInput
    else none

/-- A registered tool (the `Tool` interface, part_008 lines 9-32).  `Run` is
effectful in Go; it is modelled by `runAttempt`, an oracle giving the
(result, error) pair of the k-th sequential attempt within one
`ToolManager.Run` call. -/
structure GoTool where
  name : String
  validate : GoValue → Option GoErr
  runAttempt : Nat → String × Option GoErr

/-- `ToolConfig` (part_007 lines 12-27); the opaque `CustomConfig` bag is
never read by the manager and is not modelled. -/
structure ToolConfig where
  name : String
  enabled : Bool
  timeout : Int
  maxRetries : Int

/-- The zero value of `ToolConfig`, produced by a Go map read at a missing
key. -/
def zeroToolConfig : ToolConfig :=
  { name := "", enabled := false, timeout := 0, maxRetries := 0 }

/-- `DefaultToolConfig` (part_007 lines 30-38). -/
def defaultToolConfig (name : String) : ToolConfig :=
  { name := name, enabled := true, timeout := 30000, maxRetries := 1 }

/-- `ToolResult` (part_008 lines 35-50); the always-empty `Metadata` map is
not modelled. -/
structure ToolResult where
  success : Bool
  result : String
  error : String
  executionTime : Int

/-- `NewToolResult` (part_008 lines 53-61). -/
def newToolResult (success : Bool) (result errorMsg : String) (t : Int) : ToolResult :=
  { success := success, result := result, error := errorMsg, executionTime := t }

/-- `ToolManager`'s two maps (part_007 lines 41-46), as association lists
keyed by tool name (duplicate keys never arise: `Register` refuses an
existing name).  The `sync.RWMutex` and the logger have no observable
effect on results and are not modelled. -/
structure ToolManager where
  tools : List (String × GoTool)
  configs : List (String × ToolConfig)

/-- `NewToolManager` (part_007 lines 49-55). -/
def newToolManager : ToolManager := { tools := [], configs := [] }

/-- `ToolManager.Register` (part_007 lines 58-83); a map insert is modelled
by prepending, sound because an existing key is refused. -/
def ToolManager.register (tm : ToolManager) (tool : GoTool) (config : ToolConfig) :
    Except GoErr ToolManager :=
  if tool.name = "" then .error .errInvalidInput
  else if (tm.tools.lookup tool.name).isSome then
    .error (.otherErr ("工具 " ++ tool.name ++ " 已注册"))
  else .ok { tools := (tool.name, tool) :: tm.tools,
             configs := (tool.name, config) :: tm.configs }

/-- `ToolManager.Get` (part_007 lines 86-101). -/
def ToolManager.get (tm : ToolManager) (name : String) :
    Except GoErr (GoTool × ToolConfig) :=
  match tm.tools.lookup name with
  | none => .error .errToolNotFound
  | some tool =>
    let config := (tm.configs.lookup name).getD zeroToolConfig
    if config.enabled then .ok (tool, config) else .error .errToolDisabled

/-- Write-back of a changed config (`tm.configs[name] = config`).  The Go
map is modelled as an association list read only through `lookup`, so an
update is a prepend: `lookup name` now yields `c` and every other key is
unchanged. -/
def setConfig (configs : List (String × ToolConfig)) (name : String)
    (c : ToolConfig) : List (String × ToolConfig) :=
  (name, c) :: configs

/-- `ToolManager.Enable` (part_007 lines 219-235). -/
def ToolManager.enable (tm : ToolManager) (name : String) : Except GoErr ToolManager :=
  if (tm.tools.lookup name).isSome then
    let c := (tm.configs.lookup name).getD zeroToolConfig
    .ok { tm with configs := setConfig tm.configs name { c with enabled := true } }
  else .error .errToolNotFound

/-- `ToolManager.Disable` (part_007 lines 238-254). -/
def ToolManager.disable (tm : ToolManager) (name : String) : Except GoErr ToolManager :=
  if (tm.tools.lookup name).isSome then
    let c := (tm.configs.lookup name).getD zeroToolConfig
    .ok { tm with configs := setConfig tm.configs name { c with enabled := false } }
  else .error .errToolNotFound

/-- The retry loop of `ToolManager.Run` (part_007 lines 173-192):
`remaining` iterations are still allowed, `done` attempts have been made,
and `cur` is the current (result, execErr) pair (initially `("", nil)`).
A successful attempt stops the loop; a deadline-exceeded error is replaced
by `ErrToolTimeout` and stops the loop; any other error is retried. -/
def retryLoop (f : Nat → String × Option GoErr) :
    Nat → Nat → String × Option GoErr → (String × Option GoErr) × Nat
  | 0, done, cur => (cur, done)
  | remaining + 1, done, _cur =>
      let r := f done
      match r.2 with
      | none => (r, done + 1)
      | some e =>
          if errorsIsDeadline e then ((r.1, some .errToolTimeout), done + 1)
          else retryLoop f remaining (done + 1) r

/-- Observable outcome of one `ToolManager.Run` call (part_007 lines
142-216): the returned `(*ToolResult, error)` pair plus two ghost
observations — how many times the tool's `Run` was invoked and whether its
`Validate` was invoked. -/
structure RunOutcome where
  result : Option ToolResult
  callError : Option GoErr
  attempts : Nat
  validateCalled : Bool

/-- Result construction after the retry loop (part_007 lines 194-215):
`NewToolResult(execErr == nil, result, "", executionTime)` with the error
message filled in on failure. -/
def finishRun (loopOut : (String × Option GoErr) × Nat) (elapsed : Int) : RunOutcome :=
  match loopOut.1.2 with
  | none =>
      { result := some (newToolResult true loopOut.1.1 "" elapsed),
        callError := none, attempts := loopOut.2, validateCalled := true }
  | some e =>
      { result := some { success := false, result := loopOut.1.1,
                         error := e.message, executionTime := elapsed },
        callError := none, attempts := loopOut.2, validateCalled := true }

/-- `ToolManager.Run` (part_007 lines 142-216).  The timeout context of step
3 acts only through the attempt oracle (an attempt that hits the deadline
returns `deadlineExceeded`); `elapsed` is the opaque measured wall time of
step 5. -/
def ToolManager.run (tm : ToolManager) (name : String) (input : GoValue)
    (elapsed : Int) : RunOutcome :=
  match tm.get name with
  | .error e => { result := none, callError := some e, attempts := 0, validateCalled := false }
  | .ok (tool, config) =>
    match tool.validate input with
    | some e =>
        { result := some (newToolResult false ""
            ("输入验证失败: " ++ e.message) 0),
          callError := none, attempts := 0, validateCalled := true }
    | none =>
        finishRun (retryLoop tool.runAttempt (config.maxRetries + 1).toNat 0 ("", none))
          elapsed

/-- The rule-id strings the security scanner can produce. -/
def secRuleIdStrings : List String := secRules.map SecRule.ruleId

/-- The rule-id strings the bug detector can produce. -/
def bugRuleIdStrings : List String := bugRules.map BugRule.ruleId

/-- An attempt outcome that fails with a non-deadline error (the retried
case of the loop). -/
def attemptFailsSoft (r : String × Option GoErr) : Prop :=
  ∃ e, r.2 = some e ∧ errorsIsDeadline e = false

/-- An attempt outcome whose error satisfies
`errors.Is(err, context.DeadlineExceeded)`. -/
def attemptDeadline (r : String × Option GoErr) : Prop :=
  ∃ e, r.2 = some e ∧ errorsIsDeadline e = true

/-- Registry operations of the manager interface named by the spec's §6
boundary (`Register`, `Enable`, `Disable`, `Run`); `Get`/`List` and `Run`
never mutate the registry, `Run` is represented to show that invoking tools
between `Disable` and `Enable` keeps the state. -/
inductive MOp where
  | registerOp (tool : GoTool) (config : ToolConfig)
  | enableOp (n : String)
  | disableOp (n : String)
  | runOp (n : String) (input : GoValue) (elapsed : Int)

/-- State transition of one operation; a failing `Register`/`Enable`/
`Disable` leaves the registry unchanged, and `Run` never mutates it. -/
def applyOp (tm : ToolManager) : MOp → ToolManager
  | .registerOp t c =>
      match tm.register t c with
      | .ok tm2 => tm2
      | .error _ => tm
  | .enableOp n =>
      match tm.enable n with
      | .ok tm2 => tm2
      | .error _ => tm
  | .disableOp n =>
      match tm.disable n with
      | .ok tm2 => tm2
      | .error _ => tm
  | .runOp _ _ _ => tm

/-- The operation is `Enable(name)` for this name. -/
def opEnables (op : MOp) (name : String) : Prop :=
  match op with
  | .enableOp n => n = name
  | _ => False

/-- The tool is registered but its config is disabled. -/
def disabledAt (tm : ToolManager) (name : String) : Prop :=
  (tm.tools.lookup name).isSome = true ∧
  ∃ c, tm.configs.lookup name = some c ∧ c.enabled = false

/-- A string-input tool whose every attempt succeeds (the shape of the
tests' `MockTool`). -/
def mockTool : GoTool :=
  { name := "test_tool", validate := baseToolValidate .stringT,
    runAttempt := fun _ => ("mock result", none) }

/-- A tool whose first attempt fails with a generic error and whose second
attempt hits the deadline. -/
def flakyTool : GoTool :=
  { name := "flaky_tool", validate := baseToolValidate .stringT,
    runAttempt := fun k =>
      if k = 0 then ("", some (.otherErr "boom")) else ("", some .deadlineExceeded) }

/-- A tool whose every attempt fails with a generic (non-deadline) error. -/
def failingTool : GoTool :=
  { name := "failing_tool", validate := baseToolValidate .stringT,
    runAttempt := fun _ => ("", some (.otherErr "tool execution error")) }

/-- Manager with `mockTool` registered and enabled. -/
def tmMock : ToolManager :=
  { tools := [("test_tool", mockTool)],
    configs := [("test_tool", defaultToolConfig "test_tool")] }

/-- Manager with `flakyTool` registered, enabled, `MaxRetries = 2`. -/
def tmFlaky : ToolManager :=
  { tools := [("flaky_tool", flakyTool)],
    configs := [("flaky_tool",
      { name := "flaky_tool", enabled := true, timeout := 100, maxRetries := 2 })] }

/-- Manager with `failingTool` registered, enabled, `MaxRetries = 1`. -/
def tmFailing : ToolManager :=
  { tools := [("failing_tool", failingTool)],
    configs := [("failing_tool", defaultToolConfig "failing_tool")] }

/-- Manager with `mockTool` registered and enabled under `MaxRetries = -1`. -/
def tmNegRetry : ToolManager :=
  { tools := [("test_tool", mockTool)],
    configs := [("test_tool",
      { name := "test_tool", enabled := true, timeout := 100, maxRetries := -1 })] }

/-- The manager state after `tmMock.Disable("test_tool")` (the map update is
modelled as a prepend). -/
def tmMockDisabled : ToolManager :=
  { tools := [("test_tool", mockTool)],
    configs := [("test_tool",
        { name := "test_tool", enabled := false, timeout := 30000, maxRetries := 1 }),
      ("test_tool", defaultToolConfig "test_tool")] }

/-- The statement `password := "admin123"` at assignment offset `p`,
identifier offset `lp` and literal offset `lb`. -/
def secretAssign (p lp lb : Nat) : GoNode :=
  .assignStmt p [.ident lp "password"] [.basicLit lb .stringKind "\"admin123\""]

/-- Body of the `login` function of the hardcoded-secret scenario. -/
def secretBody : GoNode := .blockStmt 26 [secretAssign 29 29 41]

/-- The `login` function declaration of the hardcoded-secret scenario. -/
def secretFn : GoNode := .funcDecl 13 53 "login" [] secretBody

/-- Tree of `package main\nfunc login() {\n\tpassword := "admin123"\n}\n` as
`parser.ParseFile` produces it (byte offsets of each node). -/
def progSecret : GoNode := .file 0 "main" [secretFn]

/-- The source text of `progSecret`. -/
def codeSecret : String :=
  "package main\nfunc login() \x7b\n\tpassword := \"admin123\"\n\x7d\n"

/-- Tree of
`package main\n\nfunc f() int {\n\tx := rand.Intn(5) + "SELECT"\n\treturn x\n}\n`:
the `BinaryExpr`, its `CallExpr` operand and the `SelectorExpr` `rand.Intn`
all start at byte offset 35. -/
def progSameOffset : GoNode :=
  .file 0 "main" [
    .funcDecl 14 70 "f" [] (.blockStmt 27 [
      .assignStmt 30 [.ident 30 "x"] [.binaryExpr 35 .add
        (.callExpr 35 (.selectorExpr 35 (.ident 35 "rand") "Intn") [.basicLit 45 .intKind "5"])
        (.basicLit 50 .stringKind "\"SELECT\"")],
      .returnStmt 60 [.ident 67 "x"]])]

/-- The source text of `progSameOffset`. -/
def codeSameOffset : String :=
  "package main\n\nfunc f() int \x7b\n\tx := rand.Intn(5) + \"SELECT\"\n\treturn x\n\x7d\n"

/-- Tree of `package main\nfunc f() {\n\tswitch 1 {\n\tcase 1:\n\t}\n}\n`:
one switch without a default clause, at line 3. -/
def progSwitch : GoNode :=
  .file 0 "main" [
    .funcDecl 13 49 "f" [] (.blockStmt 22 [
      .switchStmt 25 none (some (.basicLit 32 .intKind "1"))
        (.blockStmt 34 [.caseClause 37 (some [.basicLit 42 .intKind "1"]) []])])]

/-- The source text of `progSwitch`. -/
def codeSwitch : String :=
  "package main\nfunc f() \x7b\n\tswitch 1 \x7b\n\tcase 1:\n\t\x7d\n\x7d\n"

/-- `func a() { return }` — no decision points. -/
def fnNoBranch : GoNode :=
  .funcDecl 0 10 "a" [] (.blockStmt 0 [.returnStmt 0 []])

/-- `func b(x, y bool) { if x && y { return } }` — one `if`, one `&&`. -/
def fnIfAnd : GoNode :=
  .funcDecl 0 40 "b" [.ident 0 "x", .ident 0 "y"]
    (.blockStmt 0 [.ifStmt 0 none (.binaryExpr 0 .land (.ident 0 "x") (.ident 0 "y"))
      (.blockStmt 0 [.returnStmt 0 []]) none])

/-- `func c(x int) { switch x { case 1: case 2: case 3: } }` — a switch with
three non-default cases. -/
def fnSwitch3 : GoNode :=
  .funcDecl 0 60 "c" [.ident 0 "x"]
    (.blockStmt 0 [.switchStmt 0 none (some (.ident 0 "x"))
      (.blockStmt 0 [.caseClause 0 (some [.basicLit 0 .intKind "1"]) [],
        .caseClause 0 (some [.basicLit 0 .intKind "2"]) [],
        .caseClause 0 (some [.basicLit 0 .intKind "3"]) []])])

/-- Like `fnSwitch3` with an added `default:` clause, which must not count. -/
def fnSwitch3Default : GoNode :=
  .funcDecl 0 70 "d" [.ident 0 "x"]
    (.blockStmt 0 [.switchStmt 0 none (some (.ident 0 "x"))
      (.blockStmt 0 [.caseClause 0 (some [.basicLit 0 .intKind "1"]) [],
        .caseClause 0 (some [.basicLit 0 .intKind "2"]) [],
        .caseClause 0 (some [.basicLit 0 .intKind "3"]) [],
        .caseClause 0 none []])])

/-- A concrete security-issue list: two issues with the same (G101, 3) pair
and one with a distinct pair. -/
def secListW : List SecurityIssue :=
  [{ id := "sec-1", ruleId := "G101", severity := "Critical", category := "Credentials",
     description := "d", file := "", line := 3, function := "", codeSnippet := "s1",
     suggestion := "g" },
   { id := "sec-9", ruleId := "G101", severity := "Critical", category := "Credentials",
     description := "d", file := "", line := 3, function := "", codeSnippet := "s2",
     suggestion := "g" },
   { id := "sec-7", ruleId := "G401", severity := "High", category := "Cryptography",
     description := "d", file := "", line := 3, function := "", codeSnippet := "s3",
     suggestion := "g" }]

/-- A concrete bug-issue list: the same (B103, 3) pair under two file names
of different lengths. -/
def bugListW : List BugIssue :=
  [{ id := "bug-25", ruleId := "B103", severity := "Low", category := "Control Flow",
     description := "d", file := "a.go", line := 3, function := "", codeSnippet := "s",
     confidence := "high" },
   { id := "bug-25", ruleId := "B103", severity := "Low", category := "Control Flow",
     description := "d", file := "ab.go", line := 3, function := "", codeSnippet := "s",
     confidence := "high" }]

theorem digitChar_toNat (n : Nat) (h : n < 10) : (digitChar n).toNat = 48 + n := by
  interval_cases n <;> rfl

theorem digitsVal_natDigitsAux : ∀ (fuel n : Nat) (acc : List Char), n < 10 ^ fuel →
    digitsVal (natDigitsAux fuel n acc) = n * 10 ^ acc.length + digitsVal acc := by
  intro fuel
  induction fuel with
  | zero =>
    intro n acc hn
    simp only [pow_zero, Nat.lt_one_iff] at hn
    subst hn
    simp [natDigitsAux]
  | succ fuel ih =>
    intro n acc hn
    rw [natDigitsAux]
    by_cases h : n < 10
    · simp only [h, if_true, digitsVal, digitChar_toNat n h]
      have hc : 48 + n - 48 = n := by omega
      rw [hc]
    · simp only [h, if_false]
      have hdiv : n / 10 < 10 ^ fuel := by
        rw [Nat.div_lt_iff_lt_mul (by omega)]
        calc n < 10 ^ (fuel + 1) := hn
          _ = 10 ^ fuel * 10 := pow_succ 10 fuel
      rw [ih (n / 10) _ hdiv]
      simp only [digitsVal, List.length_cons, digitChar_toNat (n % 10) (Nat.mod_lt _ (by omega))]
      have hc : 48 + n % 10 - 48 = n % 10 := by omega
      have hsplit : 10 * (n / 10) + n % 10 = n := Nat.div_add_mod n 10
      rw [hc, pow_succ]
      conv_rhs => rw [← hsplit]
      ring

theorem natToStr_fuel (n : Nat) : n < 10 ^ (n + 1) :=
  lt_of_lt_of_le (Nat.lt_pow_self (by omega) n)
    (Nat.pow_le_pow_right (by omega) (by omega))

theorem natToStr_inj {n m : Nat} (h : natToStr n = natToStr m) : n = m := by
  have hd : natDigitsAux (n + 1) n [] = natDigitsAux (m + 1) m [] :=
    congrArg String.data h
  have h1 := digitsVal_natDigitsAux (n + 1) n [] (natToStr_fuel n)
  have h2 := digitsVal_natDigitsAux (m + 1) m [] (natToStr_fuel m)
  rw [hd] at h1
  simp only [List.length_nil, pow_zero, mul_one, digitsVal] at h1 h2
  omega

theorem digitChar_ne_dash (n : Nat) : digitChar n ≠ '-' := by
  unfold digitChar
  split <;> decide

theorem natDigitsAux_no_dash :
    ∀ (fuel n : Nat) (acc : List Char), '-' ∉ acc → '-' ∉ natDigitsAux fuel n acc := by
  intro fuel
  induction fuel with
  | zero => intro n acc hacc; simpa [natDigitsAux] using hacc
  | succ fuel ih =>
    intro n acc hacc
    rw [natDigitsAux]
    by_cases h : n < 10
    · simp only [h, if_true, List.mem_cons, not_or]
      exact ⟨fun hc => digitChar_ne_dash n hc.symm, hacc⟩
    · simp only [h, if_false]
      refine ih (n / 10) _ ?_
      simp only [List.mem_cons, not_or]
      exact ⟨fun hc => digitChar_ne_dash (n % 10) hc.symm, hacc⟩

theorem natToStr_no_dash (n : Nat) : '-' ∉ (natToStr n).data :=
  natDigitsAux_no_dash (n + 1) n [] (by simp)

/-- Unique decomposition of a list at its first `'-'` separator. -/
theorem dash_split {l1 l2 r1 r2 : List Char} (h1 : '-' ∉ l1) (h2 : '-' ∉ l2)
    (h : l1 ++ '-' :: r1 = l2 ++ '-' :: r2) : l1 = l2 ∧ r1 = r2 := by
  induction l1 generalizing l2 with
  | nil =>
    cases l2 with
    | nil => simpa using h
    | cons c t =>
      simp only [List.nil_append, List.cons_append, List.cons.injEq] at h
      exact absurd (h.1 ▸ List.mem_cons_self c t) h2
  | cons c t ih =>
    cases l2 with
    | nil =>
      simp only [List.cons_append, List.nil_append, List.cons.injEq] at h
      exact absurd (h.1 ▸ List.mem_cons_self c t) h1
    | cons d u =>
      simp only [List.cons_append, List.cons.injEq] at h
      have ht := ih (fun hm => h1 (List.mem_cons_of_mem c hm))
        (fun hm => h2 (List.mem_cons_of_mem d hm)) h.2
      exact ⟨by rw [h.1, ht.1], ht.2⟩

theorem dedupByKey_sublist {α : Type} (key : α → String) :
    ∀ (l : List α) (seen : List String), (dedupByKey key l seen).Sublist l := by
  intro l
  induction l with
  | nil => intro seen; simp [dedupByKey]
  | cons i t ih =>
    intro seen
    rw [dedupByKey]
    by_cases h : key i ∈ seen
    · simp only [h, if_true]
      exact (ih seen).trans (List.sublist_cons_self i t)
    · simp only [h, if_false]
      exact (ih (key i :: seen)).cons₂ i

theorem dedupByKey_keys {α : Type} (key : α → String) :
    ∀ (l : List α) (seen : List String),
      ((dedupByKey key l seen).map key).Nodup ∧
      ∀ j ∈ dedupByKey key l seen, key j ∉ seen := by
  intro l
  induction l with
  | nil => intro seen; simp [dedupByKey]
  | cons i t ih =>
    intro seen
    rw [dedupByKey]
    by_cases h : key i ∈ seen
    · simp only [h, if_true]
      exact ih seen
    · simp only [h, if_false]
      obtain ⟨hnd, hout⟩ := ih (key i :: seen)
      constructor
      · simp only [List.map_cons, List.nodup_cons, hnd, and_true]
        intro hmem
        obtain ⟨j, hj, hkj⟩ := List.mem_map.mp hmem
        exact (hout j hj) (hkj ▸ List.mem_cons_self _ _)
      · intro j hj
        rcases List.mem_cons.mp hj with hji | hjr
        · exact hji ▸ h
        · exact fun hs => (hout j hjr) (List.mem_cons_of_mem _ hs)

theorem dedupByKey_first {α : Type} (key : α → String) :
    ∀ (l : List α) (seen : List String) (i : α), i ∈ l → key i ∉ seen →
      ∃ j, l.find? (fun x => key x == key i) = some j ∧ j ∈ dedupByKey key l seen := by
  intro l
  induction l with
  | nil => intro seen i hi; exact absurd hi (List.not_mem_nil i)
  | cons a t ih =>
    intro seen i hi hns
    by_cases hk : key a = key i
    · refine ⟨a, ?_, ?_⟩
      · rw [List.find?_cons_of_pos _ (by simp [hk])]
      · rw [dedupByKey]
        have : key a ∉ seen := hk ▸ hns
        simp only [this, if_false]
        exact List.mem_cons_self _ _
    · have hit : i ∈ t := by
        rcases List.mem_cons.mp hi with hia | hit
        · exact absurd (congrArg key hia.symm) hk
        · exact hit
      rw [List.find?_cons_of_neg _ (by simp [hk])]
      rw [dedupByKey]
      by_cases hs : key a ∈ seen
      · simp only [hs, if_true]
        exact ih seen i hit hns
      · simp only [hs, if_false]
        obtain ⟨j, hfind, hjmem⟩ := ih (key a :: seen) i hit
          (by simp only [List.mem_cons, not_or]; exact ⟨fun he => hk he.symm, hns⟩)
        exact ⟨j, hfind, List.mem_cons_of_mem _ hjmem⟩

theorem find_congr {α : Type} (p q : α → Bool) :
    ∀ l : List α, (∀ x ∈ l, p x = q x) → l.find? p = l.find? q := by
  intro l
  induction l with
  | nil => intro _; rfl
  | cons a t ih =>
    intro h
    have ha := h a (List.mem_cons_self _ _)
    by_cases hp : p a = true
    · rw [List.find?_cons_of_pos _ hp, List.find?_cons_of_pos _ (ha ▸ hp)]
    · have hp2 : p a = false := by revert hp; cases p a <;> simp
      rw [List.find?_cons_of_neg _ (by simp [hp2]),
        List.find?_cons_of_neg _ (by simp [← ha, hp2])]
      exact ih (fun x hx => h x (List.mem_cons_of_mem _ hx))

theorem flatMap_nil_of {α β : Type} (f : α → List β) :
    ∀ l : List α, (∀ n ∈ l, f n = []) → l.flatMap f = [] := by
  intro l
  induction l with
  | nil => intro _; rfl
  | cons a t ih =>
    intro h
    simp only [List.flatMap_cons, h a (List.mem_cons_self _ _), List.nil_append]
    exact ih (fun n hn => h n (List.mem_cons_of_mem _ hn))

theorem flatMap_single {α β : Type} (f : α → List β) (l1 l2 : List α) (a : α)
    (h1 : ∀ n ∈ l1, f n = []) (h2 : ∀ n ∈ l2, f n = []) :
    (l1 ++ a :: l2).flatMap f = f a := by
  rw [List.flatMap_append, List.flatMap_cons, flatMap_nil_of f l1 h1,
    flatMap_nil_of f l2 h2]
  simp

theorem foldl_add_init {α : Type} (g : α → Nat) :
    ∀ (l : List α) (init : Nat),
      l.foldl (fun c n => c + g n) init = init + (l.map g).sum := by
  intro l
  induction l with
  | nil => intro init; simp
  | cons a t ih =>
    intro init
    simp only [List.foldl_cons, List.map_cons, List.sum_cons, ih (init + g a)]
    omega

theorem sum_eq_countP {α : Type} (g : α → Nat) (hg : ∀ n, g n = 0 ∨ g n = 1) :
    ∀ l : List α, (l.map g).sum = l.countP (fun n => g n == 1) := by
  intro l
  induction l with
  | nil => rfl
  | cons a t ih =>
    simp only [List.map_cons, List.sum_cons, List.countP_cons, ih]
    rcases hg a with h | h
    · simp [h]
    · simp [h]
      omega

theorem appendDash_data (a b : String) :
    (a ++ "-" ++ b).data = a.data ++ '-' :: b.data := by
  have hd : ("-" : String).data = ['-'] := rfl
  simp [String.data_append, hd]

theorem secRuleIdStrings_no_dash :
    ∀ s ∈ secRuleIdStrings, '-' ∉ s.data := by decide

theorem bugRuleIdStrings_no_dash :
    ∀ s ∈ bugRuleIdStrings, '-' ∉ s.data := by decide

/-- On issues whose rule ids are among the registered (dash-free) ids, the
string key of `deduplicateIssues` determines the pair (ruleId, line). -/
theorem secKey_inj {i j : SecurityIssue}
    (hi : i.ruleId ∈ secRuleIdStrings) (hj : j.ruleId ∈ secRuleIdStrings)
    (h : secKey i = secKey j) : i.ruleId = j.ruleId ∧ i.line = j.line := by
  have hd : i.ruleId.data ++ '-' :: (natToStr i.line).data =
      j.ruleId.data ++ '-' :: (natToStr j.line).data := by
    have := congrArg String.data h
    rwa [secKey, secKey, appendDash_data, appendDash_data] at this
  obtain ⟨h1, h2⟩ := dash_split (secRuleIdStrings_no_dash _ hi)
    (secRuleIdStrings_no_dash _ hj) hd
  exact ⟨String.ext h1, natToStr_inj (String.ext h2)⟩

/-- On issues whose rule ids are among the registered (dash-free) ids, the
string key of `deduplicateBugIssues` determines the triple
(ruleId, line, length of the file name). -/
theorem bugKey_inj {i j : BugIssue}
    (hi : i.ruleId ∈ bugRuleIdStrings) (hj : j.ruleId ∈ bugRuleIdStrings)
    (h : bugKey i = bugKey j) :
    i.ruleId = j.ruleId ∧ i.line = j.line ∧ i.file.length = j.file.length := by
  have hdash : ("-" : String).data = ['-'] := rfl
  have hd := congrArg String.data h
  rw [bugKey, bugKey] at hd
  simp only [String.data_append, hdash, List.append_assoc, List.singleton_append] at hd
  obtain ⟨h1, h2⟩ := dash_split (bugRuleIdStrings_no_dash _ hi)
    (bugRuleIdStrings_no_dash _ hj) hd
  obtain ⟨h3, h4⟩ := dash_split (natToStr_no_dash i.line) (natToStr_no_dash j.line) h2
  exact ⟨String.ext h1, natToStr_inj (String.ext h3), natToStr_inj (String.ext h4)⟩

theorem retryLoop_exhaust (f : Nat → String × Option GoErr) :
    ∀ (rem done : Nat) (cur : String × Option GoErr), 0 < rem →
      (∀ j, j < rem → attemptFailsSoft (f (done + j))) →
      retryLoop f rem done cur = (f (done + (rem - 1)), done + rem) := by
  intro rem
  induction rem with
  | zero => intro done cur h; omega
  | succ k ih =>
    intro done cur _ hall
    obtain ⟨e, he, hnd⟩ := hall 0 (by omega)
    simp only [Nat.add_zero] at he hnd
    rw [retryLoop, he]
    simp only [hnd, Bool.false_eq_true, if_false]
    cases k with
    | zero => simp [retryLoop]
    | succ m =>
      rw [ih (done + 1) (f done) (by omega)
        (fun j hj => by
          have := hall (j + 1) (by omega)
          simpa [Nat.add_assoc, Nat.add_comm 1 j] using this)]
      congr 1
      · congr 1
        omega
      · omega

theorem retryLoop_deadline (f : Nat → String × Option GoErr) :
    ∀ (i rem done : Nat) (cur : String × Option GoErr), i < rem →
      (∀ j, j < i → attemptFailsSoft (f (done + j))) →
      attemptDeadline (f (done + i)) →
      retryLoop f rem done cur =
        (((f (done + i)).1, some .errToolTimeout), done + i + 1) := by
  intro i
  induction i with
  | zero =>
    intro rem done cur hlt _ hdl
    cases rem with
    | zero => omega
    | succ k =>
      obtain ⟨e, he, hd⟩ := hdl
      simp only [Nat.add_zero] at he hd
      rw [retryLoop, he]
      simp [hd]
  | succ m ih =>
    intro rem done cur hlt hprev hdl
    cases rem with
    | zero => omega
    | succ k =>
      obtain ⟨e, he, hnd⟩ := hprev 0 (by omega)
      simp only [Nat.add_zero] at he hnd
      rw [retryLoop, he]
      simp only [hnd, Bool.false_eq_true, if_false]
      have hrec := ih k (done + 1) (f done) (by omega)
        (fun j hj => by
          have := hprev (j + 1) (by omega)
          simpa [Nat.add_assoc, Nat.add_comm 1 j] using this)
        (by
          have := hdl
          simpa [Nat.add_assoc, Nat.add_comm 1 m] using this)
      have harith : done + 1 + m = done + (m + 1) := by omega
      rw [harith] at hrec
      exact hrec

theorem getOk {tm : ToolManager} {name : String} {tool : GoTool} {config : ToolConfig}
    (htool : tm.tools.lookup name = some tool)
    (hconf : tm.configs.lookup name = some config)
    (henab : config.enabled = true) :
    tm.get name = .ok (tool, config) := by
  rw [ToolManager.get, htool, hconf]
  simp [henab]

theorem setConfig_lookup_self (configs : List (String × ToolConfig))
    (name : String) (c : ToolConfig) :
    (setConfig configs name c).lookup name = some c := by
  simp [setConfig, List.lookup]

theorem setConfig_lookup_other (configs : List (String × ToolConfig))
    (name k : String) (c : ToolConfig) (hk : k ≠ name) :
    (setConfig configs name c).lookup k = configs.lookup k := by
  have hne : (k == name) = false := by
    simp only [beq_eq_false_iff_ne, ne_eq]
    exact hk
  simp [setConfig, List.lookup, hne]

theorem disable_disabledAt {tm tm2 : ToolManager} {name : String}
    (h : tm.disable name = .ok tm2) : disabledAt tm2 name := by
  rw [ToolManager.disable] at h
  by_cases hs : (tm.tools.lookup name).isSome = true
  · simp only [hs, if_true, Except.ok.injEq] at h
    subst h
    refine ⟨hs, ⟨_, setConfig_lookup_self _ _ _, rfl⟩⟩
  · simp [hs] at h

theorem run_of_disabledAt {tm : ToolManager} {name : String}
    (h : disabledAt tm name) (input : GoValue) (elapsed : Int) :
    tm.run name input elapsed =
      { result := none, callError := some .errToolDisabled,
        attempts := 0, validateCalled := false } := by
  obtain ⟨hs, c, hc, hcd⟩ := h
  obtain ⟨tool, htool⟩ := Option.isSome_iff_exists.mp hs
  rw [ToolManager.run, ToolManager.get, htool, hc]
  simp [hcd]

theorem applyOp_preserves {tm : ToolManager} {name : String} (op : MOp)
    (h : disabledAt tm name) (hop : ¬ opEnables op name) :
    disabledAt (applyOp tm op) name := by
  obtain ⟨hs, c, hc, hcd⟩ := h
  cases op with
  | registerOp t cfg =>
    rw [applyOp, ToolManager.register]
    by_cases hnm : t.name = ""
    · simp only [hnm, if_true]
      exact ⟨hs, c, hc, hcd⟩
    · by_cases hex : (tm.tools.lookup t.name).isSome = true
      · simp only [hnm, if_false, hex, if_true]
        exact ⟨hs, c, hc, hcd⟩
      · simp only [hnm, if_false, hex, Bool.false_eq_true]
        have hne : name ≠ t.name := by
          intro he
          rw [← he] at hex
          exact hex hs
        have hne2 : (name == t.name) = false := by
          simp only [beq_eq_false_iff_ne, ne_eq]
          exact hne
        refine ⟨?_, c, ?_, hcd⟩
        · simpa [List.lookup, hne2] using hs
        · simpa [List.lookup, hne2] using hc
  | enableOp n =>
    have hne : n ≠ name := by
      intro he
      exact hop (by rw [opEnables]; exact he)
    rw [applyOp, ToolManager.enable]
    by_cases hl : (tm.tools.lookup n).isSome = true
    · simp only [hl, if_true]
      refine ⟨hs, c, ?_, hcd⟩
      rw [setConfig_lookup_other _ _ _ _ (fun he => hne he.symm)]
      exact hc
    · simp only [hl, Bool.false_eq_true, if_false]
      exact ⟨hs, c, hc, hcd⟩
  | disableOp n =>
    rw [applyOp, ToolManager.disable]
    by_cases hl : (tm.tools.lookup n).isSome = true
    · simp only [hl, if_true]
      by_cases hne : n = name
      · subst hne
        exact ⟨hs, _, setConfig_lookup_self _ _ _, rfl⟩
      · refine ⟨hs, c, ?_, hcd⟩
        rw [setConfig_lookup_other _ _ _ _ (fun he => hne he.symm)]
        exact hc
    · simp only [hl, Bool.false_eq_true, if_false]
      exact ⟨hs, c, hc, hcd⟩
  | runOp n v t =>
    exact ⟨hs, c, hc, hcd⟩

theorem foldl_applyOp_preserves {name : String} :
    ∀ (ops : List MOp) (tm : ToolManager), disabledAt tm name →
      (∀ op ∈ ops, ¬ opEnables op name) →
      disabledAt (ops.foldl applyOp tm) name := by
  intro ops
  induction ops with
  | nil => intro tm h _; exact h
  | cons op t ih =>
    intro tm h hops
    rw [List.foldl_cons]
    exact ih (applyOp tm op) (applyOp_preserves op h (hops op (List.mem_cons_self _ _)))
      (fun o ho => hops o (List.mem_cons_of_mem _ ho))

/-- C1: for every registered and enabled tool, when `Validate` rejects the
input, `ToolManager.Run` returns a non-nil `ToolResult` with `success=false`
and a non-empty `error` string, a nil call error, and the tool's `Run` is
never invoked (zero attempts). -/
theorem c1_validation_failure_is_unsuccessful_result
    (tm : ToolManager) (name : String) (tool : GoTool) (config : ToolConfig)
    (input : GoValue) (elapsed : Int) (e : GoErr)
    (htool : tm.tools.lookup name = some tool)
    (hconf : tm.configs.lookup name = some config)
    (henab : config.enabled = true)
    (hval : tool.validate input = some e) :
    (tm.run name input elapsed).callError = none ∧
    (tm.run name input elapsed).attempts = 0 ∧
    ∃ r, (tm.run name input elapsed).result = some r ∧
      r.success = false ∧ 0 < r.error.length := by
  have hrun : tm.run name input elapsed =
      { result := some (newToolResult false "" ("输入验证失败: " ++ e.message) 0),
        callError := none, attempts := 0, validateCalled := true } := by
    simp only [ToolManager.run, getOk htool hconf henab, hval]
  refine ⟨by rw [hrun], by rw [hrun], ⟨_, by rw [hrun], rfl, ?_⟩⟩
  have hlen : ("输入验证失败: " : String).length = 8 := rfl
  simp only [newToolResult, String.length_append, hlen]
  omega

/-- Witness for C1 at a concrete manager: the registered string tool rejects
the empty string and `Run` reports it as an unsuccessful result. -/
theorem c1_witness :
    (tmMock.run "test_tool" (.strV "") 5).callError = none ∧
    (tmMock.run "test_tool" (.strV "") 5).attempts = 0 ∧
    ∃ r, (tmMock.run "test_tool" (.strV "") 5).result = some r ∧
      r.success = false ∧ 0 < r.error.length :=
  c1_validation_failure_is_unsuccessful_result tmMock "test_tool" mockTool
    (defaultToolConfig "test_tool") (.strV "") 5 .errInvalidInput rfl rfl rfl rfl

/-- C2: within one `ToolManager.Run` call, a deadline-exceeded attempt error
is terminal — no further attempt starts even if retries remain, and the
returned result is `success=false` with `error` equal to the `ErrToolTimeout`
sentinel's message; whereas if every attempt fails with a non-deadline error
the tool is retried up to `MaxRetries` additional times (`MaxRetries + 1`
sequential attempts in total). -/
theorem c2_deadline_terminal_other_errors_retried
    (tm : ToolManager) (name : String) (tool : GoTool) (config : ToolConfig)
    (input : GoValue) (elapsed : Int)
    (htool : tm.tools.lookup name = some tool)
    (hconf : tm.configs.lookup name = some config)
    (henab : config.enabled = true)
    (hval : tool.validate input = none) :
    (∀ i : Nat, (i : Int) ≤ config.maxRetries →
      (∀ j, j < i → attemptFailsSoft (tool.runAttempt j)) →
      attemptDeadline (tool.runAttempt i) →
      (tm.run name input elapsed).attempts = i + 1 ∧
      (tm.run name input elapsed).callError = none ∧
      ∃ r, (tm.run name input elapsed).result = some r ∧
        r.success = false ∧ r.error = GoErr.errToolTimeout.message) ∧
    (0 ≤ config.maxRetries →
      (∀ j : Nat, (j : Int) < config.maxRetries + 1 → attemptFailsSoft (tool.runAttempt j)) →
      ((tm.run name input elapsed).attempts : Int) = config.maxRetries + 1 ∧
      (tm.run name input elapsed).callError = none ∧
      ∃ r, (tm.run name input elapsed).result = some r ∧ r.success = false) := by
  constructor
  · intro i hi hprev hdl
    have hi2 : i < (config.maxRetries + 1).toNat := by omega
    have hloop := retryLoop_deadline tool.runAttempt i ((config.maxRetries + 1).toNat)
      0 ("", none) hi2
      (fun j hj => by simpa using hprev j hj)
      (by simpa using hdl)
    have hrun : tm.run name input elapsed =
        { result := some { success := false,
                           result := (tool.runAttempt (0 + i)).1,
                           error := GoErr.errToolTimeout.message,
                           executionTime := elapsed },
          callError := none, attempts := 0 + i + 1, validateCalled := true } := by
      simp only [ToolManager.run, getOk htool hconf henab, hval]
      rw [hloop]
      simp [finishRun]
    rw [hrun]
    exact ⟨by simp, rfl, ⟨_, rfl, rfl, rfl⟩⟩
  · intro hnn hall
    have hpos : 0 < (config.maxRetries + 1).toNat := by omega
    have hloop := retryLoop_exhaust tool.runAttempt ((config.maxRetries + 1).toNat)
      0 ("", none) hpos
      (fun j hj => by
        have : (j : Int) < config.maxRetries + 1 := by omega
        simpa using hall j this)
    obtain ⟨e, he, hnd⟩ := hall ((config.maxRetries + 1).toNat - 1) (by omega)
    have hrun : tm.run name input elapsed =
        { result := some { success := false,
                           result := (tool.runAttempt (0 + ((config.maxRetries + 1).toNat - 1))).1,
                           error := e.message,
                           executionTime := elapsed },
          callError := none, attempts := 0 + (config.maxRetries + 1).toNat,
          validateCalled := true } := by
      simp only [ToolManager.run, getOk htool hconf henab, hval]
      rw [hloop]
      rw [finishRun]
      simp only [Nat.zero_add] at he ⊢
      rw [he]
    rw [hrun]
    refine ⟨by simp; omega, rfl, ⟨_, rfl, rfl⟩⟩

/-- Witness for C2 at a concrete manager (`MaxRetries = 2`): the first
attempt fails generically, the second hits the deadline, and `Run` stops
after 2 attempts with the timeout sentinel in the result. -/
theorem c2_witness :
    (tmFlaky.run "flaky_tool" (.strV "x") 7).attempts = 2 ∧
    (tmFlaky.run "flaky_tool" (.strV "x") 7).callError = none ∧
    ∃ r, (tmFlaky.run "flaky_tool" (.strV "x") 7).result = some r ∧
      r.success = false ∧ r.error = GoErr.errToolTimeout.message :=
  (c2_deadline_terminal_other_errors_retried tmFlaky "flaky_tool" flakyTool
      { name := "flaky_tool", enabled := true, timeout := 100, maxRetries := 2 }
      (.strV "x") 7 rfl rfl rfl rfl).1 1 (by decide)
    (fun j hj => by
      interval_cases j
      exact ⟨.otherErr "boom", rfl, rfl⟩)
    ⟨.deadlineExceeded, rfl, rfl⟩

/-- C10: with `MaxRetries < 0` the retry loop body never executes, so `Run`
on a registered, enabled tool with valid input performs zero attempts and
returns `Success=true` with empty `Result` and `Error` strings and a nil
call error. -/
theorem c10_negative_maxretries_zero_attempts_success
    (tm : ToolManager) (name : String) (tool : GoTool) (config : ToolConfig)
    (input : GoValue) (elapsed : Int)
    (htool : tm.tools.lookup name = some tool)
    (hconf : tm.configs.lookup name = some config)
    (henab : config.enabled = true)
    (hval : tool.validate input = none)
    (hneg : config.maxRetries < 0) :
    tm.run name input elapsed =
      { result := some { success := true, result := "", error := "",
                         executionTime := elapsed },
        callError := none, attempts := 0, validateCalled := true } := by
  have h0 : (config.maxRetries + 1).toNat = 0 := by omega
  simp only [ToolManager.run, getOk htool hconf henab, hval, h0, retryLoop]
  simp [finishRun, newToolResult]

/-- Witness for C10 at a concrete manager with `MaxRetries = -1`. -/
theorem c10_witness :
    tmNegRetry.run "test_tool" (.strV "ok") 3 =
      { result := some { success := true, result := "", error := "",
                         executionTime := 3 },
        callError := none, attempts := 0, validateCalled := true } :=
  c10_negative_maxretries_zero_attempts_success tmNegRetry "test_tool" mockTool
    { name := "test_tool", enabled := true, timeout := 100, maxRetries := -1 }
    (.strV "ok") 3 rfl rfl rfl rfl (by decide)

/-- C5: after `Disable(name)` succeeds, and through any further sequence of
interface operations (`Register`, `Enable` of other names, `Disable`, `Run`)
that does not include `Enable(name)`, `Run(ctx, name, input)` returns a nil
`ToolResult` together with `ErrToolDisabled`, invoking neither the tool's
`Validate` nor its `Run`. -/
theorem c5_disabled_tool_rejected
    (tm tm2 : ToolManager) (name : String)
    (hdis : tm.disable name = .ok tm2)
    (ops : List MOp) (hops : ∀ op ∈ ops, ¬ opEnables op name)
    (input : GoValue) (elapsed : Int) :
    (ops.foldl applyOp tm2).run name input elapsed =
      { result := none, callError := some .errToolDisabled,
        attempts := 0, validateCalled := false } :=
  run_of_disabledAt (foldl_applyOp_preserves ops tm2 (disable_disabledAt hdis) hops)
    input elapsed

/-- Witness for C5 at a concrete manager: disable the tool, run another
operation in between, and `Run` still reports the disabled error. -/
theorem c5_witness :
    ([MOp.runOp "test_tool" (.strV "x") 1].foldl applyOp tmMockDisabled).run
        "test_tool" (.strV "hello") 2 =
      { result := none, callError := some .errToolDisabled,
        attempts := 0, validateCalled := false } :=
  c5_disabled_tool_rejected tmMock tmMockDisabled
    "test_tool" rfl [MOp.runOp "test_tool" (.strV "x") 1]
    (fun op hop => by
      simp only [List.mem_singleton] at hop
      subst hop
      simp [opEnables])
    (.strV "hello") 2

theorem decisionIncrement_cases (n : GoNode) :
    decisionIncrement n = 0 ∨ decisionIncrement n = 1 := by
  cases n
  case caseClause p l b => cases l <;> simp [decisionIncrement]
  case binaryExpr p op x y =>
    rw [decisionIncrement]
    split <;> simp
  all_goals simp [decisionIncrement]

/-- C4: the cyclomatic complexity of a function declaration is 1 plus the
number of decision points `ast.Inspect` sees in it; in particular a function
with no branches has complexity 1, one `if` with one `&&` in its condition
gives 3, a switch with three non-default cases gives 5, and a `default`
clause adds nothing. -/
theorem c4_complexity_is_one_plus_decision_points :
    (∀ fn : GoNode, calculateComplexity fn =
      1 + (preorder fn).countP (fun n => decisionIncrement n == 1)) ∧
    calculateComplexity fnNoBranch = 1 ∧
    calculateComplexity fnIfAnd = 3 ∧
    calculateComplexity fnSwitch3 = 5 ∧
    calculateComplexity fnSwitch3Default = 5 := by
  refine ⟨fun fn => ?_, rfl, rfl, rfl, rfl⟩
  rw [calculateComplexity, foldl_add_init decisionIncrement,
    sum_eq_countP decisionIncrement decisionIncrement_cases]

theorem statsFold_totalFunctions :
    ∀ (l : List FunctionResult) (st : Statistics),
      (l.foldl (fun st r =>
        if r.complexity ≤ 10 then { st with simpleFunctions := st.simpleFunctions + 1 }
        else if r.complexity ≤ 20 then { st with mediumFunctions := st.mediumFunctions + 1 }
        else if r.complexity ≤ 50 then { st with complexFunctions := st.complexFunctions + 1 }
        else { st with veryComplexFunctions := st.veryComplexFunctions + 1 }) st).totalFunctions
      = st.totalFunctions := by
  intro l
  induction l with
  | nil => intro st; rfl
  | cons r t ih =>
    intro st
    rw [List.foldl_cons, ih]
    by_cases h1 : r.complexity ≤ 10
    · simp [h1]
    · by_cases h2 : r.complexity ≤ 20
      · simp [h1, h2]
      · by_cases h3 : r.complexity ≤ 50 <;> simp [h1, h2, h3]

theorem calculateStatistics_totalFunctions (results : List FunctionResult) :
    (calculateStatistics results).totalFunctions = results.length := by
  rw [calculateStatistics, statsFold_totalFunctions]

/-- C8 counterexample: on a one-function file whose function has complexity
3, the result's `total` is 3 while the number of analyzed functions
(`statistics.total_functions`) is 1 — `total` is not the function count. -/
theorem c8_counterexample_total_is_not_function_count :
    (complexityRun codeSwitch progSwitch).total = 3 ∧
    (complexityRun codeSwitch progSwitch).statistics.totalFunctions = 1 ∧
    (complexityRun codeSwitch progSwitch).total ≠
      (complexityRun codeSwitch progSwitch).statistics.totalFunctions := by
  refine ⟨rfl, rfl, by decide⟩

/-- C8 amended: the complexity result's `total` field is the SUM of the
cyclomatic complexities of the analyzed functions (it equals the function
count only when every complexity is 1); the function count is carried by
`statistics.total_functions`. -/
theorem c8_total_is_summed_complexity (code : String) (t : GoNode) :
    (complexityRun code t).total =
      ((collectFunctions t).map calculateComplexity).sum ∧
    (complexityRun code t).statistics.totalFunctions = (collectFunctions t).length := by
  constructor
  · have hc : ((fun r => r.complexity) ∘ analyzeFunction code) = calculateComplexity := by
      funext fn
      rfl
    simp [complexityRun, List.map_map, hc]
  · simp [complexityRun, calculateStatistics_totalFunctions]

/-- C6: for any source whose tree contains the statement
`password := "admin123"` exactly once and in which no other node triggers
any security rule, the scanner reports exactly one Issue, with the
hardcoded-secret rule id `G101` and severity `Critical`, and `total = 1`. -/
theorem c6_hardcoded_secret_yields_single_critical_issue
    (code : String) (t : GoNode) (p lp lb : Nat) (l1 l2 : List GoNode)
    (hsplit : preorder t = l1 ++ secretAssign p lp lb :: l2)
    (h1 : ∀ n ∈ l1, ∀ r ∈ secRules, secMatch r n = false)
    (h2 : ∀ n ∈ l2, ∀ r ∈ secRules, secMatch r n = false) :
    (securityRun code t).total = 1 ∧
    ∃ iss, (securityRun code t).issues = [iss] ∧
      iss.ruleId = "G101" ∧ iss.severity = "Critical" := by
  have hnil : ∀ n, (∀ r ∈ secRules, secMatch r n = false) →
      (secRules.filter (fun r => secMatch r n)).map
        (fun r => buildSecurityIssue r n code) = [] := by
    intro n hn
    have hf : secRules.filter (fun r => secMatch r n) = [] := by
      rw [List.filter_eq_nil_iff]
      intro r hr
      simp [hn r hr]
    rw [hf]
    rfl
  have hfilter : secRules.filter (fun r => secMatch r (secretAssign p lp lb)) =
      [.hardCodedSecret] := rfl
  have hscan : securityScanIssues code t =
      [buildSecurityIssue .hardCodedSecret (secretAssign p lp lb) code] := by
    rw [securityScanIssues, hsplit,
      flatMap_single _ l1 l2 _ (fun n hn => hnil n (h1 n hn)) (fun n hn => hnil n (h2 n hn)),
      hfilter]
    rfl
  have hded : deduplicateIssues (securityScanIssues code t) =
      [buildSecurityIssue .hardCodedSecret (secretAssign p lp lb) code] := by
    rw [hscan]
    rfl
  constructor
  · show (securityRun code t).total = 1
    simp only [securityRun, hded]
    rfl
  · refine ⟨buildSecurityIssue .hardCodedSecret (secretAssign p lp lb) code, ?_, rfl, rfl⟩
    simp only [securityRun, hded]

/-- Witness for C6 at the concrete hardcoded-secret program. -/
theorem c6_witness :
    (securityRun codeSecret progSecret).total = 1 ∧
    ∃ iss, (securityRun codeSecret progSecret).issues = [iss] ∧
      iss.ruleId = "G101" ∧ iss.severity = "Critical" :=
  c6_hardcoded_secret_yields_single_critical_issue codeSecret progSecret 29 29 41
    [progSecret, secretFn, secretBody]
    [.ident 29 "password", .basicLit 41 .stringKind "\"admin123\""]
    rfl (by decide) (by decide)

/-- C7: the Issue built for the matched `password := "admin123"` node lying
inside `func login` carries an EMPTY `function` field, although the spec's
enclosing-function lookup (`specEnclosingFunction`) names `login` — the
lookup in `buildSecurityIssue`/`buildBugIssue` inspects the matched node's
own subtree, where the enclosing `FuncDecl` can never be found. -/
theorem c7_function_field_always_empty :
    ((securityRun codeSecret progSecret).issues.map (fun i => i.function)) = [""] ∧
    specEnclosingFunction progSecret (secretAssign 29 29 41) = "login" :=
  ⟨rfl, rfl⟩

/-- C9 counterexample: on `x := rand.Intn(5) + "SELECT"` the deduplicated
issue list holds two distinct issues — SQL-injection (`G201`) on the
`BinaryExpr` and weak-random (`G401`) on the nested `SelectorExpr`, both at
byte offset 35 — sharing the id `sec-35`. -/
theorem c9_counterexample_duplicate_ids :
    ((securityRun codeSameOffset progSameOffset).issues.map (fun i => (i.id, i.ruleId))) =
      [("sec-35", "G201"), ("sec-35", "G401")] := rfl

/-- C9 amended: generated ids are injective in the matched node's byte
offset — two issues get the same id exactly when their nodes share a byte
offset, which different rules can do (see the counterexample); ids are NOT
unique per run in that case. -/
theorem c9_issue_id_collides_iff_same_offset (r1 r2 : SecRule) (n1 n2 : GoNode)
    (code1 code2 : String) :
    (buildSecurityIssue r1 n1 code1).id = (buildSecurityIssue r2 n2 code2).id ↔
      n1.nodePos = n2.nodePos := by
  have e1 : (buildSecurityIssue r1 n1 code1).id = "sec-" ++ natToStr n1.nodePos := rfl
  have e2 : (buildSecurityIssue r2 n2 code2).id = "sec-" ++ natToStr n2.nodePos := rfl
  rw [e1, e2]
  constructor
  · intro h
    have hd := congrArg String.data h
    simp only [String.data_append] at hd
    exact natToStr_inj (String.ext (List.append_cancel_left hd))
  · intro h
    rw [h]

/-- C3 counterexample: a file-list bug-detector run over two files whose
names have different lengths, each containing the same switch-without-default
at line 3, yields TWO issues with the same (ruleId, line) pair after
deduplication — the bug detector's key also contains `len(File)`. -/
theorem c3_counterexample_same_pair_survives :
    (bugRunIssues [("a.go", codeSwitch, progSwitch), ("ab.go", codeSwitch, progSwitch)]).map
      (fun i => (i.ruleId, i.line)) = [("B103", 3), ("B103", 3)] := rfl

/-- C3 amended: the security scanner deduplicates by (ruleId, line) — the
result is a subsequence of the collected issues with pairwise-distinct
(ruleId, line) pairs, and the first occurrence of every triggered pair is
kept; the bug detector deduplicates by (ruleId, line, byte length of the
file name) instead, so the same laws hold only for that triple (within a
single file the pair law follows, but across files with different name
lengths duplicate pairs survive, see the counterexample). -/
theorem c3_dedup_laws :
    (∀ l : List SecurityIssue, (∀ i ∈ l, i.ruleId ∈ secRuleIdStrings) →
      (deduplicateIssues l).Sublist l ∧
      ((deduplicateIssues l).map (fun i => (i.ruleId, i.line))).Nodup ∧
      (∀ i ∈ l, ∃ j, l.find? (fun x => x.ruleId == i.ruleId && x.line == i.line) = some j ∧
        j ∈ deduplicateIssues l)) ∧
    (∀ l : List BugIssue, (∀ i ∈ l, i.ruleId ∈ bugRuleIdStrings) →
      (deduplicateBugIssues l).Sublist l ∧
      ((deduplicateBugIssues l).map (fun i => (i.ruleId, i.line, i.file.length))).Nodup ∧
      (∀ i ∈ l, ∃ j, l.find? (fun x => x.ruleId == i.ruleId && x.line == i.line &&
          x.file.length == i.file.length) = some j ∧ j ∈ deduplicateBugIssues l)) := by
  constructor
  · intro l hids
    refine ⟨dedupByKey_sublist secKey l [], ?_, ?_⟩
    · apply List.Nodup.of_map (f := fun pr : String × Nat => pr.1 ++ "-" ++ natToStr pr.2)
      rw [List.map_map]
      have hfe : ((fun pr : String × Nat => pr.1 ++ "-" ++ natToStr pr.2) ∘
          (fun i : SecurityIssue => (i.ruleId, i.line))) = secKey := by
        funext i
        rfl
      rw [hfe]
      exact (dedupByKey_keys secKey l []).1
    · intro i hi
      obtain ⟨j, hfind, hmem⟩ := dedupByKey_first secKey l [] i hi (by simp)
      refine ⟨j, ?_, hmem⟩
      rw [← hfind]
      apply find_congr
      intro x hx
      rw [Bool.eq_iff_iff]
      simp only [Bool.and_eq_true, beq_iff_eq]
      constructor
      · rintro ⟨hr, hl⟩
        rw [secKey, secKey, hr, hl]
      · intro hk
        exact secKey_inj (hids x hx) (hids i hi) hk
  · intro l hids
    refine ⟨dedupByKey_sublist bugKey l [], ?_, ?_⟩
    · apply List.Nodup.of_map
        (f := fun pr : String × Nat × Nat => pr.1 ++ "-" ++ natToStr pr.2.1 ++ "-" ++ natToStr pr.2.2)
      rw [List.map_map]
      have hfe : ((fun pr : String × Nat × Nat =>
          pr.1 ++ "-" ++ natToStr pr.2.1 ++ "-" ++ natToStr pr.2.2) ∘
          (fun i : BugIssue => (i.ruleId, i.line, i.file.length))) = bugKey := by
        funext i
        rfl
      rw [hfe]
      exact (dedupByKey_keys bugKey l []).1
    · intro i hi
      obtain ⟨j, hfind, hmem⟩ := dedupByKey_first bugKey l [] i hi (by simp)
      refine ⟨j, ?_, hmem⟩
      rw [← hfind]
      apply find_congr
      intro x hx
      rw [Bool.eq_iff_iff]
      simp only [Bool.and_eq_true, beq_iff_eq, and_assoc]
      constructor
      · rintro ⟨hr, hl, hf⟩
        rw [bugKey, bugKey, hr, hl, hf]
      · intro hk
        exact bugKey_inj (hids x hx) (hids i hi) hk

/-- Witness for C3 at the concrete issue lists. -/
theorem c3_witness :
    ((deduplicateIssues secListW).Sublist secListW ∧
      ((deduplicateIssues secListW).map (fun i => (i.ruleId, i.line))).Nodup ∧
      (∀ i ∈ secListW, ∃ j,
        secListW.find? (fun x => x.ruleId == i.ruleId && x.line == i.line) = some j ∧
        j ∈ deduplicateIssues secListW)) ∧
    ((deduplicateBugIssues bugListW).Sublist bugListW ∧
      ((deduplicateBugIssues bugListW).map (fun i => (i.ruleId, i.line, i.file.length))).Nodup ∧
      (∀ i ∈ bugListW, ∃ j,
        bugListW.find? (fun x => x.ruleId == i.ruleId && x.line == i.line &&
          x.file.length == i.file.length) = some j ∧ j ∈ deduplicateBugIssues bugListW)) :=
  ⟨c3_dedup_laws.1 secListW (by decide), c3_dedup_laws.2 bugListW (by decide)⟩
